import Mathlib

/-
Verification of the printing-cost-optimization supplier-allocation core.

This file gives a shallow embedding of the data model (src/optimizer/models.py),
the CP-SAT model builder and result extractor (src/optimizer/solver.py), and the
cross-validation routine (src/optimizer/data_loader.py), and proves or refutes
the specified properties against that embedding.

Modelling conventions:
* Python dicts built by comprehension are modelled by `getLast?` of a filter
  (later entries overwrite earlier ones).
* CP-SAT boolean variables are modelled as a valuation `Sol` mapping the
  variable key (book_id, supplier_id, method) to Bool; auxiliary booleans
  (kit-supplier indicators, brand indicators) are separate valuations.
* A "solution the built model admits" (solver status OPTIMAL or FEASIBLE) is a
  valuation satisfying every constraint the builder posts; this is the CP-SAT
  contract taken as the semantics of the external solving capability.
* `unit_cost` values are rationals; Python's `int()` truncation of the scaled
  cost is `pyInt` below (truncation toward zero, which is `Int.floor` for the
  non-negative products that occur here).
-/

namespace PrintOpt

/-- models.py `Book`: id, title, brand, positive production volume, non-empty
normalized method list, optional kit back-reference. -/
structure Book where
  id : String
  title : String
  brand : String
  production_volume : Nat
  available_printing_methods : List String
  kit_id : Option String
deriving DecidableEq

/-- models.py `Kit`: id, name, member book ids. -/
structure Kit where
  id : String
  name : String
  book_ids : List String
deriving DecidableEq

/-- models.py `Supplier`: id, name, capacities mapping method -> positive
capacity (a Python dict, modelled as an association list with unique keys). -/
structure Supplier where
  id : String
  name : String
  capacities : List (String × Nat)
deriving DecidableEq

/-- models.py `Cost`: the (book, supplier, method) -> positive unit cost fact. -/
structure Cost where
  book_id : String
  supplier_id : String
  printing_method : String
  unit_cost : ℚ
deriving DecidableEq

/-- models.py `OptimizationConfig`. -/
structure OptimizationConfig where
  max_volumes_per_brand_per_supplier : Nat
  solver_time_limit_seconds : Nat
  num_search_workers : Nat
  enable_symmetry_breaking : Bool
deriving DecidableEq

/-- models.py `ProblemData`. -/
structure ProblemData where
  books : List Book
  kits : List Kit
  suppliers : List Supplier
  costs : List Cost
  config : OptimizationConfig
deriving DecidableEq

/-- models.py `Assignment`: the extracted output fact. -/
structure Assignment where
  book_id : String
  supplier_id : String
  printing_method : String
  production_volume : Nat
  unit_cost : ℚ
  total_cost : ℚ
deriving DecidableEq

/-- solver.py `self.cost_matrix`: dict comprehension over `data.costs`, keyed by
(book_id, supplier_id, printing_method); a later Cost row overwrites an earlier
one with the same key, hence `getLast?`. -/
def costMatrix (data : ProblemData) (b s m : String) : Option ℚ :=
  ((data.costs.filter fun c =>
      c.book_id == b && c.supplier_id == s && c.printing_method == m).getLast?).map
    Cost.unit_cost

/-- solver.py `self.book_map`: dict from book id to Book (last wins). -/
def bookMap (data : ProblemData) (bid : String) : Option Book :=
  (data.books.filter fun b => b.id == bid).getLast?

/-- Membership of a key in `self.x` (solver.py `_create_variables`): a variable
exists for (b, s, m) iff some book with id b lists method m, some supplier has
id s, and the cost matrix has an entry for the triple. -/
def hasVar (data : ProblemData) (b s m : String) : Bool :=
  (data.books.any fun book => book.id == b && book.available_printing_methods.contains m) &&
  (data.suppliers.any fun sup => sup.id == s) &&
  (costMatrix data b s m).isSome

/-- The value of a 0/1 variable as an integer. -/
def boolVal (b : Bool) : ℤ := if b then 1 else 0

/-- A solver valuation of the decision variables `x[book, supplier, method]`. -/
abbrev Sol := String × String × String → Bool

/-- Linear sum of a list of 0/1 variables, as posted to CP-SAT. -/
def sumX (sol : Sol) (keys : List (String × String × String)) : ℤ :=
  (keys.map fun k => boolVal (sol k)).sum

/-- solver.py `_add_assignment_constraints` comprehension: all candidate keys of
a given book, iterating suppliers then the book's methods, keeping keys in x. -/
def bookCandidates (data : ProblemData) (book : Book) : List (String × String × String) :=
  data.suppliers.flatMap fun sup =>
    book.available_printing_methods.filterMap fun m =>
      if hasVar data book.id sup.id m then some (book.id, sup.id, m) else none

/-- Candidate keys of the book with id `bid` at supplier `sid`, via the
`self.book_map` lookup used by the kit-cohesion and brand constraints. -/
def memberCandidatesAt (data : ProblemData) (bid sid : String) : List (String × String × String) :=
  match bookMap data bid with
  | some book =>
      book.available_printing_methods.filterMap fun m =>
        if hasVar data bid sid m then some (bid, sid, m) else none
  | none => []

/-- solver.py `_add_assignment_constraints`: each book's candidate variables sum
to exactly 1. -/
def AssignmentConstraints (data : ProblemData) (sol : Sol) : Prop :=
  ∀ book ∈ data.books, sumX sol (bookCandidates data book) = 1

/-- Valuation of the auxiliary booleans `kit_{kit}_supplier_{supplier}`. -/
abbrev KitAux := String × String → Bool

/-- Valuation of the auxiliary booleans `brand_{brand}_book_{book}_supplier_{s}`
(the brand is determined by the book, so the key is (book_id, supplier_id)). -/
abbrev BrandAux := String × String → Bool

/-- solver.py `_add_kit_cohesion_constraints`: for each kit of size >= 2, the
reference member's per-supplier sum defines the kit-supplier indicator (only
when the reference has candidates there), and every other member's per-supplier
sum must equal that indicator (only when that member has candidates there). -/
def KitConstraints (data : ProblemData) (sol : Sol) (ksv : KitAux) : Prop :=
  ∀ kit ∈ data.kits, 2 ≤ kit.book_ids.length →
    ∀ sup ∈ data.suppliers,
      (memberCandidatesAt data kit.book_ids.headI sup.id ≠ [] →
        sumX sol (memberCandidatesAt data kit.book_ids.headI sup.id) =
          boolVal (ksv (kit.id, sup.id))) ∧
      (∀ bid ∈ kit.book_ids.tail,
        memberCandidatesAt data bid sup.id ≠ [] →
          sumX sol (memberCandidatesAt data bid sup.id) = boolVal (ksv (kit.id, sup.id)))

/-- solver.py `self.books_by_brand[brand]` (insertion order of data.books). -/
def brandBooks (data : ProblemData) (brand : String) : List String :=
  (data.books.filter fun b => b.brand == brand).map Book.id

/-- solver.py `_add_brand_diversification_constraints`: each book's per-supplier
indicator equals its per-supplier variable sum (0 when it has no candidates
there), and per (brand, supplier) the indicators of books having candidates
there sum to at most the configured ceiling (posted only when that book list is
non-empty). -/
def BrandConstraints (data : ProblemData) (sol : Sol) (bsi : BrandAux) : Prop :=
  ∀ brand ∈ data.books.map Book.brand, ∀ sup ∈ data.suppliers,
    (∀ bid ∈ brandBooks data brand,
      sumX sol (memberCandidatesAt data bid sup.id) = boolVal (bsi (bid, sup.id))) ∧
    (((brandBooks data brand).filter fun bid =>
        !(memberCandidatesAt data bid sup.id).isEmpty) ≠ [] →
      (((brandBooks data brand).filter fun bid =>
          !(memberCandidatesAt data bid sup.id).isEmpty).map fun bid =>
            boolVal (bsi (bid, sup.id))).sum ≤
        (data.config.max_volumes_per_brand_per_supplier : ℤ))

/-- solver.py `_add_capacity_constraints` left-hand side for one (supplier,
method): sum of production_volume times the variable, over the books listing
the method with a variable at this supplier. -/
def capacityLHS (data : ProblemData) (sol : Sol) (sid m : String) : ℤ :=
  (data.books.map fun book =>
    if book.available_printing_methods.contains m && hasVar data book.id sid m
    then (book.production_volume : ℤ) * boolVal (sol (book.id, sid, m))
    else 0).sum

/-- solver.py `_add_capacity_constraints`: for every declared (method, capacity)
of a supplier, the assigned volume is at most the capacity (the constraint is
posted only when some book is eligible, but an empty sum is 0 <= capacity). -/
def CapacityConstraints (data : ProblemData) (sol : Sol) : Prop :=
  ∀ sup ∈ data.suppliers, ∀ mc ∈ sup.capacities,
    capacityLHS data sol sup.id mc.1 ≤ (mc.2 : ℤ)

/-- Python `int()` applied to a rational: truncation toward zero. -/
def pyInt (q : ℚ) : ℤ :=
  if 0 ≤ q then ⌊q⌋ else -⌊-q⌋

/-- solver.py `_add_objective` coefficient of one candidate variable:
`int(cost_matrix[key] * production_volume * 1000)`. -/
def scaledCoeff (data : ProblemData) (book : Book) (sid m : String) : ℤ :=
  pyInt ((costMatrix data book.id sid m).getD 0 * (book.production_volume : ℚ) * 1000)

/-- solver.py `_add_objective`: the minimized integer expression, iterating
books, suppliers and each book's methods over keys present in x. -/
def scaledObjective (data : ProblemData) (sol : Sol) : ℤ :=
  (data.books.map fun book =>
    ((bookCandidates data book).map fun k =>
      scaledCoeff data book k.2.1 k.2.2 * boolVal (sol k)).sum).sum

/-- solver.py `solve`: `solver.ObjectiveValue() / 1000.0`, converting the scaled
integer objective back. -/
def objectiveValue (data : ProblemData) (sol : Sol) : ℚ :=
  (scaledObjective data sol : ℚ) / 1000

/-- solver.py `_extract_assignments` inner loops for one (book, supplier): the
first method of the book whose variable exists and is solved to 1 (the `break`
leaves only the method loop). -/
def firstSelected (data : ProblemData) (sol : Sol) (book : Book) (sid : String) : Option String :=
  book.available_printing_methods.find? fun m => hasVar data book.id sid m && sol (book.id, sid, m)

/-- The Assignment record emitted by `_extract_assignments` for one hit. -/
def mkAssignment (data : ProblemData) (book : Book) (sid m : String) : Assignment :=
  let uc := (costMatrix data book.id sid m).getD 0
  { book_id := book.id
    supplier_id := sid
    printing_method := m
    production_volume := book.production_volume
    unit_cost := uc
    total_cost := uc * (book.production_volume : ℚ) }

/-- The assignments `_extract_assignments` emits for one book: one per supplier
at which some method variable is solved to 1. -/
def bookChunk (data : ProblemData) (sol : Sol) (book : Book) : List Assignment :=
  data.suppliers.filterMap fun sup =>
    (firstSelected data sol book sup.id).map fun m => mkAssignment data book sup.id m

/-- solver.py `_extract_assignments`. -/
def extractAssignments (data : ProblemData) (sol : Sol) : List Assignment :=
  data.books.flatMap fun book => bookChunk data sol book

/-- solver.py `_calculate_utilization` volume_used: total production volume of
the assignments at one (supplier, method); absent usage gives 0. -/
def volumeUsed (assignments : List Assignment) (sid m : String) : Nat :=
  ((assignments.filter fun a => a.supplier_id == sid && a.printing_method == m).map
    Assignment.production_volume).sum

/-- solver.py `_calculate_utilization`: per supplier, per declared (method,
capacity), used / capacity * 100, guarded by `capacity > 0`. -/
def calculateUtilization (data : ProblemData) (assignments : List Assignment) :
    List (String × List (String × ℚ)) :=
  data.suppliers.map fun sup =>
    (sup.id, sup.capacities.map fun mc =>
      (mc.1, if 0 < mc.2
             then (volumeUsed assignments sup.id mc.1 : ℚ) / (mc.2 : ℚ) * 100
             else 0))

/-- Lexicographic comparator on capacity items, mirroring Python
`sorted(supplier.capacities.items())`. -/
def capItemLe (a b : String × Nat) : Bool :=
  a.1 < b.1 || (a.1 == b.1 && a.2 ≤ b.2)

/-- Insertion step of a stable sort by `capItemLe`. -/
def insertSorted (a : String × Nat) : List (String × Nat) → List (String × Nat)
  | [] => [a]
  | b :: rest => if capItemLe a b then a :: b :: rest else b :: insertSorted a rest

/-- solver.py `_add_symmetry_breaking_constraints` capacity signature:
`tuple(sorted(supplier.capacities.items()))` (implemented as insertion sort by
the same lexicographic order). -/
def capSig (sup : Supplier) : List (String × Nat) :=
  sup.capacities.foldr insertSorted []

/-- Append a supplier id to the group with its signature, keeping first-seen
group order (Python defaultdict insertion order). -/
def insertGroup (groups : List (List (String × Nat) × List String))
    (sig : List (String × Nat)) (sid : String) :
    List (List (String × Nat) × List String) :=
  match groups with
  | [] => [(sig, [sid])]
  | (s, ids) :: rest =>
      if s = sig then (s, ids ++ [sid]) :: rest else (s, ids) :: insertGroup rest sig sid

/-- solver.py `supplier_groups`: supplier ids grouped by capacity signature. -/
def supplierGroups (data : ProblemData) : List (List (String × Nat) × List String) :=
  data.suppliers.foldl (fun gs sup => insertGroup gs (capSig sup) sup.id) []

/-- `len(set(costs)) <= 1`: all collected costs equal. -/
def allEqual : List ℚ → Bool
  | [] => true
  | c :: rest => rest.all fun d => d == c

/-- solver.py identical-costs check for a supplier group: for every book and
every available method, the costs defined among the group's suppliers (absent
entries are skipped) contain at most one distinct value. -/
def identicalCosts (data : ProblemData) (ids : List String) : Bool :=
  data.books.all fun book =>
    book.available_printing_methods.all fun m =>
      allEqual (ids.filterMap fun sid => costMatrix data book.id sid m)

/-- `for i in range(len(supplier_ids) - 1)`: adjacent pairs. -/
def adjacentPairs : List String → List (String × String)
  | a :: b :: rest => (a, b) :: adjacentPairs (b :: rest)
  | _ => []

/-- The (book_id, method, volume) terms of one supplier's total-volume
expression in `_add_symmetry_breaking_constraints`. -/
def supplierVolumeTerms (data : ProblemData) (sid : String) : List (String × String × Nat) :=
  data.books.flatMap fun book =>
    book.available_printing_methods.filterMap fun m =>
      if hasVar data book.id sid m then some (book.id, m, book.production_volume) else none

/-- Total volume assigned to one supplier, as used by the ordering constraint. -/
def supplierVolume (data : ProblemData) (sol : Sol) (sid : String) : ℤ :=
  ((supplierVolumeTerms data sid).map fun t =>
    (t.2.2 : ℤ) * boolVal (sol (t.1, sid, t.2.1))).sum

/-- solver.py `_add_symmetry_breaking_constraints`: for each capacity group of
size >= 2 passing the identical-costs check, each adjacent pair (s1, s2) with
both volume expressions non-empty satisfies volume(s1) >= volume(s2). -/
def SymmetryConstraints (data : ProblemData) (sol : Sol) : Prop :=
  ∀ g ∈ supplierGroups data, 2 ≤ g.2.length → identicalCosts data g.2 = true →
    ∀ p ∈ adjacentPairs g.2,
      supplierVolumeTerms data p.1 ≠ [] → supplierVolumeTerms data p.2 ≠ [] →
        supplierVolume data sol p.2 ≤ supplierVolume data sol p.1

/-- A valuation (with its auxiliary booleans) satisfies every constraint the
builder posts, the symmetry-breaking ones only when the config enables them.
This is the set of solutions the built model admits: by the CP-SAT contract,
a solved result with status OPTIMAL or FEASIBLE is exactly the extraction of
such a valuation. -/
def Admits (data : ProblemData) (sol : Sol) : Prop :=
  ∃ ksv bsi, (AssignmentConstraints data sol ∧ KitConstraints data sol ksv ∧
    BrandConstraints data sol bsi ∧ CapacityConstraints data sol) ∧
    (data.config.enable_symmetry_breaking = true → SymmetryConstraints data sol)

/-- Python exception kinds raised by the loader and the builder. -/
inductive PyError where
  | valueError : String → PyError
  | attributeError : String → PyError
  | keyError : String → PyError
deriving DecidableEq

/-- solver.py `build_model`: `_add_assignment_constraints` raises ValueError at
the first book with no candidate variables; afterwards
`_add_kit_cohesion_constraints` raises KeyError at the first member id of a
size >= 2 kit that is missing from book_map (the lookup sits inside the
supplier loop, so it is reached only when the supplier list is non-empty).
The remaining build steps raise nothing. -/
def buildModel (data : ProblemData) : Except PyError Unit :=
  match data.books.find? (fun book => (bookCandidates data book).isEmpty) with
  | some book =>
      .error (.valueError ("Book " ++ book.id ++ " has no valid (supplier, method) assignments"))
  | none =>
      if data.suppliers.isEmpty then .ok ()
      else
        match ((data.kits.filter fun k => 2 ≤ k.book_ids.length).flatMap
                Kit.book_ids).find? (fun bid => (bookMap data bid).isNone) with
        | some bid => .error (.keyError bid)
        | none => .ok ()

/-- The attribute names the pydantic `Book` model defines (models.py lines
7-28). `printing_method` is not among them. -/
def bookAttributes : List String :=
  ["id", "title", "brand", "production_volume", "available_printing_methods", "kit_id"]

/-- Attribute access on a Book: succeeds only for the defined attributes,
otherwise Python raises AttributeError. -/
def getBookAttr (name : String) : Except PyError Unit :=
  if bookAttributes.contains name then .ok ()
  else .error (.attributeError ("Book object has no attribute " ++ name))

/-- data_loader.py `_validate_problem_data` kit-reference check. -/
def checkKitRefs (data : ProblemData) : Except PyError Unit :=
  match data.kits.findSome? (fun kit =>
    (kit.book_ids.find? fun bid => !(data.books.any fun b => b.id == bid)).map
      fun bid => (kit.id, bid)) with
  | some kb => .error (.valueError ("Kit " ++ kb.1 ++ " references non-existent book " ++ kb.2))
  | none => .ok ()

/-- data_loader.py cost-reference check (book checked before supplier, first
offending cost row wins). -/
def checkCostRefs (data : ProblemData) : Except PyError Unit :=
  match data.costs.findSome? (fun c =>
    if !(data.books.any fun b => b.id == c.book_id) then
      some (PyError.valueError ("Cost entry references non-existent book " ++ c.book_id))
    else if !(data.suppliers.any fun s => s.id == c.supplier_id) then
      some (PyError.valueError ("Cost entry references non-existent supplier " ++ c.supplier_id))
    else none) with
  | some e => .error e
  | none => .ok ()

/-- data_loader.py books-without-costs check (`book_ids - cost_book_ids`). -/
def checkBooksHaveCosts (data : ProblemData) : Except PyError Unit :=
  if ((data.books.map Book.id).filter fun bid =>
        !(data.costs.any fun c => c.book_id == bid)) ≠ [] then
    .error (.valueError "Books without cost data")
  else .ok ()

/-- The (book_id, kit_id) pairs in traversal order of the kit-membership loop. -/
def kitAssignPairs (data : ProblemData) : List (String × String) :=
  data.kits.flatMap fun kit => kit.book_ids.map fun bid => (bid, kit.id)

/-- Walk the membership pairs keeping the incremental dict; report the first
book id already present (with its earlier and later kit). -/
def findDupAssign : List (String × String) → List (String × String) →
    Option (String × String × String)
  | _, [] => none
  | acc, (bid, kid) :: rest =>
      match acc.find? (fun p => p.1 == bid) with
      | some p => some (bid, p.2, kid)
      | none => findDupAssign (acc ++ [(bid, kid)]) rest

/-- data_loader.py multiple-kit-membership check. -/
def checkKitDups (data : ProblemData) : Except PyError Unit :=
  match findDupAssign [] (kitAssignPairs data) with
  | some d => .error (.valueError ("Book " ++ d.1 ++ " appears in multiple kits: " ++
      d.2.1 ++ " and " ++ d.2.2))
  | none => .ok ()

/-- The final `kit_book_assignments` dict: first kit listing the book id. -/
def kitOf (data : ProblemData) (bid : String) : Option String :=
  ((kitAssignPairs data).find? fun p => p.1 == bid).map Prod.snd

/-- data_loader.py kit_id-consistency check. -/
def checkKitIdConsistency (data : ProblemData) : Except PyError Unit :=
  match data.books.findSome? (fun b =>
    match b.kit_id with
    | none => none
    | some kid =>
        match kitOf data b.id with
        | none => some (PyError.valueError ("Book " ++ b.id ++ " claims to be in kit " ++
            kid ++ " but is not listed in any kit"))
        | some actual =>
            if actual ≠ kid then
              some (PyError.valueError ("Book " ++ b.id ++ " kit_id mismatch"))
            else none) with
  | some e => .error e
  | none => .ok ()

/-- data_loader.py `_validate_problem_data`: the five cross-checks in source
order, then the set comprehension `{book.printing_method for book in
data.books}`, which reads the undefined attribute `printing_method` on each
book (the subsequent supplier-coverage loop only `pass`es). -/
def validateProblemData (data : ProblemData) : Except PyError Unit := do
  let _ ← checkKitRefs data
  let _ ← checkCostRefs data
  let _ ← checkBooksHaveCosts data
  let _ ← checkKitDups data
  let _ ← checkKitIdConsistency data
  data.books.forM fun _ => getBookAttr "printing_method"

-- ### helper lemmas

theorem sum_boolVal (p : α → Bool) (l : List α) :
    (l.map fun k => boolVal (p k)).sum = (l.countP p : ℤ) := by
  induction l with
  | nil => simp
  | cons a l ih =>
      rw [List.map_cons, List.sum_cons, List.countP_cons, ih]
      by_cases h : p a
      · simp [boolVal, h]
        omega
      · simp [boolVal, h]

theorem countP_flatMap (p : β → Bool) (f : α → List β) (l : List α) :
    (l.flatMap f).countP p = (l.map fun a => (f a).countP p).sum := by
  induction l with
  | nil => simp
  | cons a l ih => simp [List.flatMap_cons, List.countP_append, ih]

theorem countP_filterMap_if (p : β → Bool) (c : α → Bool) (g : α → β) (l : List α) :
    ((l.filterMap fun a => if c a then some (g a) else none).countP p)
      = l.countP fun a => c a && p (g a) := by
  induction l with
  | nil => simp
  | cons a l ih =>
      by_cases h : c a
      · simp [List.filterMap_cons, h, List.countP_cons, ih]
      · simp [List.filterMap_cons, h, List.countP_cons, ih]

theorem sum_nat_one (f : α → ℕ) (l : List α) (h : (l.map f).sum = 1) :
    ∃ l1 a l2, l = l1 ++ a :: l2 ∧ f a = 1 ∧ (∀ x ∈ l1, f x = 0) ∧ (∀ x ∈ l2, f x = 0) := by
  induction l with
  | nil => simp at h
  | cons a l ih =>
      simp only [List.map_cons, List.sum_cons] at h
      rcases Nat.eq_zero_or_pos (f a) with h0 | hpos
      · rw [h0, Nat.zero_add] at h
        obtain ⟨l1, b, l2, rfl, hb, h1, h2⟩ := ih h
        refine ⟨a :: l1, b, l2, rfl, hb, ?_, h2⟩
        intro x hx
        rcases List.mem_cons.mp hx with rfl | hx
        · exact h0
        · exact h1 x hx
      · have hfa : f a = 1 := by omega
        have hrest : (l.map f).sum = 0 := by omega
        refine ⟨[], a, l, rfl, hfa, by simp, ?_⟩
        intro x hx
        exact List.sum_eq_zero_iff.mp hrest (f x) (List.mem_map_of_mem f hx)

theorem countP_one (p : α → Bool) (l : List α) (h : l.countP p = 1) :
    ∃ l1 a l2, l = l1 ++ a :: l2 ∧ p a = true ∧ l1.countP p = 0 ∧ l2.countP p = 0 := by
  induction l with
  | nil => simp at h
  | cons a l ih =>
      rw [List.countP_cons] at h
      by_cases hp : p a
      · rw [if_pos hp] at h
        have h0 : l.countP p = 0 := by omega
        exact ⟨[], a, l, rfl, hp, by simp, h0⟩
      · rw [if_neg hp, Nat.add_zero] at h
        obtain ⟨l1, b, l2, rfl, hb, h1, h2⟩ := ih h
        refine ⟨a :: l1, b, l2, rfl, hb, ?_, h2⟩
        rw [List.countP_cons, if_neg hp, Nat.add_zero]
        exact h1

theorem countP_unique (p : α → Bool) (l : List α) (h : l.countP p = 1)
    (a b : α) (ha : a ∈ l) (hb : b ∈ l) (hpa : p a = true) (hpb : p b = true) : a = b := by
  obtain ⟨l1, x, l2, rfl, hx, h1, h2⟩ := countP_one p l h
  have key : ∀ y ∈ l1 ++ x :: l2, p y = true → y = x := by
    intro y hy hpy
    rcases List.mem_append.mp hy with hy | hy
    · exact absurd hpy (by simpa using List.countP_eq_zero.mp h1 y hy)
    · rcases List.mem_cons.mp hy with rfl | hy
      · rfl
      · exact absurd hpy (by simpa using List.countP_eq_zero.mp h2 y hy)
  rw [key a ha hpa, key b hb hpb]

theorem sum_mul_boolVal_unique (coeff : κ → ℤ) (q : κ → Bool) (K : List κ) (k0 : κ)
    (hcount : K.countP q = 1) (hq : q k0 = true) (hk : k0 ∈ K) :
    (K.map fun k => coeff k * boolVal (q k)).sum = coeff k0 := by
  obtain ⟨l1, a, l2, rfl, ha, h1, h2⟩ := countP_one q _ hcount
  have hz : ∀ (l : List κ), l.countP q = 0 →
      (l.map fun k => coeff k * boolVal (q k)).sum = 0 := by
    intro l hl
    apply List.sum_eq_zero
    intro x hx
    obtain ⟨k, hkmem, rfl⟩ := List.mem_map.mp hx
    have := List.countP_eq_zero.mp hl k hkmem
    simp [boolVal, this]
  have hk0 : k0 = a :=
    countP_unique q _ hcount k0 a hk (by simp) hq ha
  subst hk0
  rw [List.map_append, List.sum_append, List.map_cons, List.sum_cons,
    hz l1 h1, hz l2 h2, ha]
  simp [boolVal]

theorem sum_map_flatMap {M : Type} [AddCommMonoid M] (w : β → M) (f : α → List β) (l : List α) :
    ((l.flatMap f).map w).sum = (l.map fun a => ((f a).map w).sum).sum := by
  induction l with
  | nil => simp
  | cons a l ih => simp [List.flatMap_cons, ih]

theorem filter_flatMap (P : β → Bool) (f : α → List β) (l : List α) :
    (l.flatMap f).filter P = l.flatMap fun a => (f a).filter P := by
  induction l with
  | nil => simp
  | cons a l ih => simp [List.flatMap_cons, List.filter_append, ih]

theorem boolVal_nonneg (b : Bool) : 0 ≤ boolVal b := by
  cases b <;> simp [boolVal]

theorem boolVal_le_one (b : Bool) : boolVal b ≤ 1 := by
  cases b <;> simp [boolVal]

-- ### the per-book selection lemma

/-- Number of methods of `book` whose variable at supplier `sid` is solved to 1. -/
def selCount (data : ProblemData) (sol : Sol) (book : Book) (sid : String) : ℕ :=
  book.available_printing_methods.countP fun m =>
    hasVar data book.id sid m && sol (book.id, sid, m)

theorem sumX_eq_selCount_sum (data : ProblemData) (sol : Sol) (book : Book) :
    sumX sol (bookCandidates data book)
      = ((data.suppliers.map fun sup => selCount data sol book sup.id).sum : ℤ) := by
  unfold sumX bookCandidates selCount
  rw [sum_boolVal, countP_flatMap]
  congr 2
  apply List.map_congr_left
  intro sup hsup
  exact countP_filterMap_if _ _ _ _

theorem firstSelected_isSome_iff (data : ProblemData) (sol : Sol) (book : Book) (sid : String) :
    (firstSelected data sol book sid).isSome ↔ 0 < selCount data sol book sid := by
  unfold firstSelected selCount
  rw [List.find?_isSome, List.countP_pos_iff]

theorem firstSelected_eq_none (data : ProblemData) (sol : Sol) (book : Book) (sid : String)
    (h : selCount data sol book sid = 0) : firstSelected data sol book sid = none := by
  rcases hf : firstSelected data sol book sid with _ | m
  · rfl
  · have : (firstSelected data sol book sid).isSome := by rw [hf]; rfl
    rw [firstSelected_isSome_iff, h] at this
    exact absurd this (by simp)

theorem bookSelection (data : ProblemData) (sol : Sol) (book : Book)
    (h : sumX sol (bookCandidates data book) = 1) :
    ∃ sup m, sup ∈ data.suppliers ∧
      firstSelected data sol book sup.id = some m ∧
      m ∈ book.available_printing_methods ∧
      hasVar data book.id sup.id m = true ∧
      sol (book.id, sup.id, m) = true ∧
      bookChunk data sol book = [mkAssignment data book sup.id m] ∧
      (bookCandidates data book).countP (fun k => sol k) = 1 ∧
      (book.id, sup.id, m) ∈ bookCandidates data book := by
  have hsum : (data.suppliers.map fun sup => selCount data sol book sup.id).sum = 1 := by
    have := sumX_eq_selCount_sum data sol book
    rw [h] at this
    exact_mod_cast this.symm
  obtain ⟨L1, sup0, L2, hdec, hone, hz1, hz2⟩ := sum_nat_one _ _ hsum
  have hsup0 : sup0 ∈ data.suppliers := by rw [hdec]; simp
  have hfs : (firstSelected data sol book sup0.id).isSome := by
    rw [firstSelected_isSome_iff, hone]
    exact Nat.one_pos
  obtain ⟨m, hm⟩ := Option.isSome_iff_exists.mp hfs
  have hpm := List.find?_some hm
  have hmem := List.mem_of_find?_eq_some hm
  have hhas : hasVar data book.id sup0.id m = true := by
    exact (Bool.and_eq_true_iff.mp hpm).1
  have hsol : sol (book.id, sup0.id, m) = true := by
    exact (Bool.and_eq_true_iff.mp hpm).2
  have hchunk : bookChunk data sol book = [mkAssignment data book sup0.id m] := by
    unfold bookChunk
    rw [hdec, List.filterMap_append, List.filterMap_cons]
    have hnil : ∀ (L : List Supplier), (∀ x ∈ L, selCount data sol book x.id = 0) →
        (L.filterMap fun sup =>
          (firstSelected data sol book sup.id).map fun mm =>
            mkAssignment data book sup.id mm) = [] := by
      intro L hL
      rw [List.filterMap_eq_nil_iff]
      intro sup hsupL
      rw [firstSelected_eq_none data sol book sup.id (hL sup hsupL)]
      rfl
    rw [hnil L1 hz1, hnil L2 hz2, hm]
    rfl
  have hcount : (bookCandidates data book).countP (fun k => sol k) = 1 := by
    have := sum_boolVal (fun k => sol k) (bookCandidates data book)
    unfold sumX at h
    rw [h] at this
    exact_mod_cast this.symm
  have hkmem : (book.id, sup0.id, m) ∈ bookCandidates data book := by
    unfold bookCandidates
    rw [List.mem_flatMap]
    refine ⟨sup0, hsup0, ?_⟩
    rw [List.mem_filterMap]
    exact ⟨m, hmem, by rw [if_pos hhas]⟩
  exact ⟨sup0, m, hsup0, hm, hmem, hhas, hsol, hchunk, hcount, hkmem⟩

theorem mem_bookChunk_book_id (data : ProblemData) (sol : Sol) (book : Book)
    (a : Assignment) (ha : a ∈ bookChunk data sol book) : a.book_id = book.id := by
  unfold bookChunk at ha
  obtain ⟨sup, hsup, hmap⟩ := List.mem_filterMap.mp ha
  obtain ⟨m, hm, rfl⟩ := Option.map_eq_some'.mp hmap
  rfl

-- ### concrete instances used by witnesses and counterexamples

/-- Configuration with symmetry breaking enabled (defaults of models.py). -/
def cfgSB : OptimizationConfig :=
  { max_volumes_per_brand_per_supplier := 4, solver_time_limit_seconds := 300,
    num_search_workers := 8, enable_symmetry_breaking := true }

/-- Configuration with symmetry breaking disabled. -/
def cfgNoSB : OptimizationConfig :=
  { max_volumes_per_brand_per_supplier := 4, solver_time_limit_seconds := 300,
    num_search_workers := 8, enable_symmetry_breaking := false }

def bookW1 : Book :=
  { id := "w1", title := "W1", brand := "A", production_volume := 5,
    available_printing_methods := ["m"], kit_id := none }

def supW : Supplier := { id := "S1", name := "S1", capacities := [("m", 10)] }

/-- A small well-formed instance: one book, one supplier, one priced method. -/
def W10 : ProblemData :=
  { books := [bookW1],
    kits := [],
    suppliers := [supW],
    costs := [{ book_id := "w1", supplier_id := "S1", printing_method := "m", unit_cost := 3 }],
    config := cfgSB }

def solW : Sol := fun k => k == ("w1", "S1", "m")

def auxFalse : String × String → Bool := fun _ => false

def bsiW : BrandAux := fun k => k == ("w1", "S1")

theorem admitsW : Admits W10 solW := by
  refine ⟨auxFalse, bsiW, ⟨?_, ?_, ?_, ?_⟩, fun _ => ?_⟩
  · unfold AssignmentConstraints; decide
  · unfold KitConstraints; decide
  · unfold BrandConstraints; decide
  · unfold CapacityConstraints; decide
  · unfold SymmetryConstraints; decide

-- ### claims

/-- C1. For every solved result whose status is OPTIMAL or FEASIBLE (i.e. the
extraction of a valuation the built model admits), every book of the problem
data appears in exactly one Assignment: the per-book sum-to-1 constraint leaves
a unique selected candidate variable, and `_extract_assignments` emits exactly
one record from it. -/
theorem c1_every_book_in_exactly_one_assignment (data : ProblemData) (sol : Sol)
    (hadm : Admits data sol) (hids : (data.books.map Book.id).Nodup)
    (book : Book) (hb : book ∈ data.books) :
    ((extractAssignments data sol).countP fun a => a.book_id == book.id) = 1 := by
  obtain ⟨ksv, bsi, ⟨hA, -, -, -⟩, -⟩ := hadm
  obtain ⟨l1, l2, hdec⟩ := List.append_of_mem hb
  rw [hdec] at hids
  rw [List.map_append, List.map_cons] at hids
  have hnotin1 : book.id ∉ l1.map Book.id := by
    have hdisj := (List.nodup_append.mp hids).2.2
    intro hmem
    exact hdisj hmem (by simp)
  have hnotin2 : book.id ∉ l2.map Book.id := by
    have hright := (List.nodup_append.mp hids).2.1
    exact (List.nodup_cons.mp hright).1
  have hzero : ∀ b ∈ l1 ++ l2,
      ((bookChunk data sol b).countP fun a => a.book_id == book.id) = 0 := by
    intro b hbmem
    apply List.countP_eq_zero.mpr
    intro a hamem
    have hid := mem_bookChunk_book_id data sol b a hamem
    have hbid : b.id ≠ book.id := by
      rcases List.mem_append.mp hbmem with h | h
      · intro hcontra
        exact hnotin1 (hcontra ▸ List.mem_map_of_mem Book.id h)
      · intro hcontra
        exact hnotin2 (hcontra ▸ List.mem_map_of_mem Book.id h)
    simp [hid, hbid]
  have hone : ((bookChunk data sol book).countP fun a => a.book_id == book.id) = 1 := by
    obtain ⟨sup, m, -, -, -, -, -, hchunk, -, -⟩ :=
      bookSelection data sol book (hA book hb)
    rw [hchunk]
    simp [List.countP_cons, mkAssignment]
  unfold extractAssignments
  rw [hdec, countP_flatMap, List.map_append, List.map_cons, List.sum_append,
    List.sum_cons, hone]
  have z1 : ((l1.map fun b => (bookChunk data sol b).countP
      fun a => a.book_id == book.id)).sum = 0 := by
    apply List.sum_eq_zero
    intro x hx
    obtain ⟨b, hbmem, rfl⟩ := List.mem_map.mp hx
    exact hzero b (List.mem_append_left _ hbmem)
  have z2 : ((l2.map fun b => (bookChunk data sol b).countP
      fun a => a.book_id == book.id)).sum = 0 := by
    apply List.sum_eq_zero
    intro x hx
    obtain ⟨b, hbmem, rfl⟩ := List.mem_map.mp hx
    exact hzero b (List.mem_append_right _ hbmem)
  rw [z1, z2]
  omega

/-- Witness for C1 at the concrete instance `W10`. -/
theorem c1_witness :
    Admits W10 solW ∧ (W10.books.map Book.id).Nodup ∧ bookW1 ∈ W10.books ∧
    ((extractAssignments W10 solW).countP fun a => a.book_id == bookW1.id) = 1 :=
  ⟨admitsW, by decide, by decide,
    c1_every_book_in_exactly_one_assignment W10 solW admitsW (by decide) bookW1 (by decide)⟩

theorem chunk_filter_vol_le (data : ProblemData) (sol : Sol) (book : Book)
    (sup : Supplier) (m0 : String) (hsup : sup ∈ data.suppliers)
    (hnd : (data.suppliers.map Supplier.id).Nodup) :
    ((((bookChunk data sol book).filter fun a =>
        a.supplier_id == sup.id && a.printing_method == m0).map
          Assignment.production_volume).sum : ℤ)
      ≤ (if book.available_printing_methods.contains m0 && hasVar data book.id sup.id m0
         then (book.production_volume : ℤ) * boolVal (sol (book.id, sup.id, m0))
         else 0) := by
  have hrhs : (0:ℤ) ≤ (if book.available_printing_methods.contains m0 &&
      hasVar data book.id sup.id m0
      then (book.production_volume : ℤ) * boolVal (sol (book.id, sup.id, m0)) else 0) := by
    split
    · exact mul_nonneg (by positivity) (boolVal_nonneg _)
    · exact le_refl 0
  obtain ⟨S1, S2, hdec⟩ := List.append_of_mem hsup
  rw [hdec] at hnd
  rw [List.map_append, List.map_cons] at hnd
  have hnotin1 : sup.id ∉ S1.map Supplier.id := by
    have hdisj := (List.nodup_append.mp hnd).2.2
    intro hmem
    exact hdisj hmem (by simp)
  have hnil : ∀ L : List Supplier, sup.id ∉ L.map Supplier.id →
      ((L.filterMap fun s =>
        (firstSelected data sol book s.id).map fun mm => mkAssignment data book s.id mm).filter
          fun a => a.supplier_id == sup.id && a.printing_method == m0) = [] := by
    intro L hL
    rw [List.filter_eq_nil_iff]
    intro a ha hP
    obtain ⟨s, hs, hmap⟩ := List.mem_filterMap.mp ha
    obtain ⟨mm, hmm, rfl⟩ := Option.map_eq_some'.mp hmap
    have hsid : s.id = sup.id := by
      have hb := (Bool.and_eq_true_iff.mp hP).1
      exact of_decide_eq_true hb
    exact hL (hsid ▸ List.mem_map_of_mem Supplier.id hs)
  have hnotin2 : sup.id ∉ S2.map Supplier.id := by
    have hright := (List.nodup_append.mp hnd).2.1
    exact (List.nodup_cons.mp hright).1
  unfold bookChunk
  rw [hdec, List.filterMap_append, List.filter_append, hnil S1 hnotin1, List.nil_append]
  rcases hfs : firstSelected data sol book sup.id with _ | m
  · rw [List.filterMap_cons_none (by rw [hfs]; rfl), hnil S2 hnotin2]
    simpa using hrhs
  · rw [List.filterMap_cons_some (by rw [hfs]; rfl)]
    by_cases hP : ((mkAssignment data book sup.id m).supplier_id == sup.id &&
        (mkAssignment data book sup.id m).printing_method == m0) = true
    · simp only [List.filter_cons]
      rw [if_pos hP, hnil S2 hnotin2]
      have hm0 : m = m0 := by
        have hb := (Bool.and_eq_true_iff.mp hP).2
        exact of_decide_eq_true hb
      subst hm0
      have hpm := List.find?_some hfs
      have hmem := List.mem_of_find?_eq_some hfs
      have hhas : hasVar data book.id sup.id m = true := (Bool.and_eq_true_iff.mp hpm).1
      have hsol : sol (book.id, sup.id, m) = true := (Bool.and_eq_true_iff.mp hpm).2
      have hcontains : book.available_printing_methods.contains m = true :=
        List.elem_eq_true_of_mem hmem
      rw [if_pos (by rw [hcontains, hhas]; rfl)]
      rw [hsol]
      simp [mkAssignment, boolVal]
    · simp only [List.filter_cons]
      rw [if_neg hP, hnil S2 hnotin2]
      simpa using hrhs

/-- C4. For every supplier and every printing method it declares capacity for,
in any solution the built model admits, the production volume summed over the
Assignments extracted at that (supplier, method) pair does not exceed the
declared capacity ceiling. -/
theorem c4_capacity_respected (data : ProblemData) (sol : Sol)
    (hadm : Admits data sol) (hnd : (data.suppliers.map Supplier.id).Nodup)
    (sup : Supplier) (hsup : sup ∈ data.suppliers)
    (mc : String × Nat) (hmc : mc ∈ sup.capacities) :
    (((extractAssignments data sol).filter fun a =>
        a.supplier_id == sup.id && a.printing_method == mc.1).map
      Assignment.production_volume).sum ≤ mc.2 := by
  obtain ⟨ksv, bsi, ⟨-, -, -, hC⟩, -⟩ := hadm
  have hcap := hC sup hsup mc hmc
  have hchain : ((((extractAssignments data sol).filter fun a =>
      a.supplier_id == sup.id && a.printing_method == mc.1).map
        Assignment.production_volume).sum : ℤ) ≤ (mc.2 : ℤ) := by
    refine le_trans ?_ hcap
    unfold extractAssignments capacityLHS
    rw [filter_flatMap]
    rw [show ((data.books.flatMap fun book => (bookChunk data sol book).filter fun a =>
        a.supplier_id == sup.id && a.printing_method == mc.1).map
          Assignment.production_volume).sum
      = (data.books.map fun book => (((bookChunk data sol book).filter fun a =>
          a.supplier_id == sup.id && a.printing_method == mc.1).map
            Assignment.production_volume).sum).sum from sum_map_flatMap _ _ _]
    rw [Nat.cast_list_sum, List.map_map]
    apply List.sum_le_sum
    intro book hbook
    exact chunk_filter_vol_le data sol book sup mc.1 hsup hnd
  exact_mod_cast hchain

/-- Witness for C4 at the concrete instance `W10`. -/
theorem c4_witness :
    Admits W10 solW ∧ (W10.suppliers.map Supplier.id).Nodup ∧ supW ∈ W10.suppliers ∧
    ("m", 10) ∈ supW.capacities ∧
    (((extractAssignments W10 solW).filter fun a =>
        a.supplier_id == supW.id && a.printing_method == ("m", 10).1).map
      Assignment.production_volume).sum ≤ ("m", 10).2 :=
  ⟨admitsW, by decide, by decide, by decide,
    c4_capacity_respected W10 solW admitsW (by decide) supW (by decide) ("m", 10) (by decide)⟩

/-- C6. If some book yields zero candidate decision variables (no (supplier,
method) pair with both a cost entry and the method available), `build_model`
returns a ValueError naming such a book during model construction, so no model
is produced and solve is never reached. -/
theorem c6_build_fails_without_candidates (data : ProblemData)
    (h : ∃ book ∈ data.books, bookCandidates data book = []) :
    ∃ book ∈ data.books, bookCandidates data book = [] ∧
      buildModel data = Except.error (PyError.valueError
        ("Book " ++ book.id ++ " has no valid (supplier, method) assignments")) := by
  have hfind : (data.books.find? fun book => (bookCandidates data book).isEmpty).isSome := by
    rw [List.find?_isSome]
    obtain ⟨b, hb, hempty⟩ := h
    exact ⟨b, hb, by simp [hempty]⟩
  obtain ⟨b, hb⟩ := Option.isSome_iff_exists.mp hfind
  refine ⟨b, List.mem_of_find?_eq_some hb, by simpa using List.find?_some hb, ?_⟩
  unfold buildModel
  rw [hb]

def bookX : Book :=
  { id := "x1", title := "X1", brand := "A", production_volume := 5,
    available_printing_methods := ["m"], kit_id := none }

/-- An instance whose only book has no cost entry at all. -/
def W6 : ProblemData :=
  { books := [bookX], kits := [],
    suppliers := [supW], costs := [], config := cfgSB }

theorem c6_witness :
    (∃ book ∈ W6.books, bookCandidates W6 book = []) ∧
    ∃ book ∈ W6.books, bookCandidates W6 book = [] ∧
      buildModel W6 = Except.error (PyError.valueError
        ("Book " ++ book.id ++ " has no valid (supplier, method) assignments")) :=
  ⟨⟨bookX, by decide, by decide⟩,
    c6_build_fails_without_candidates W6 ⟨bookX, by decide, by decide⟩⟩

/-- C5 (amended). Model construction succeeds exactly when every book has at
least one candidate (a cost entry for an available method at some supplier) and
the kit lookups resolve; capacity declarations play no role in the check, so a
book priced only at pairs without declared capacity passes the build. -/
theorem c5_amended_build_ok_iff (data : ProblemData) :
    buildModel data = Except.ok () ↔
      ((∀ book ∈ data.books, bookCandidates data book ≠ []) ∧
       (data.suppliers = [] ∨ ∀ kit ∈ data.kits, 2 ≤ kit.book_ids.length →
          ∀ bid ∈ kit.book_ids, (bookMap data bid).isSome)) := by
  rcases hf : data.books.find? (fun book => (bookCandidates data book).isEmpty) with _ | b
  · have h1 : ∀ book ∈ data.books, bookCandidates data book ≠ [] := by
      intro book hbmem
      have hne := List.find?_eq_none.mp hf book hbmem
      simpa using hne
    by_cases hsup : data.suppliers.isEmpty
    · have hbuild : buildModel data = Except.ok () := by
        unfold buildModel
        rw [hf, if_pos hsup]
      rw [hbuild]
      constructor
      · intro _
        exact ⟨h1, Or.inl (List.isEmpty_iff.mp hsup)⟩
      · intro _
        rfl
    · rcases hg : ((data.kits.filter fun k => 2 ≤ k.book_ids.length).flatMap
          Kit.book_ids).find? (fun bid => (bookMap data bid).isNone) with _ | bid
      · have hbuild : buildModel data = Except.ok () := by
          unfold buildModel
          rw [hf, if_neg hsup, hg]
        rw [hbuild]
        constructor
        · intro _
          refine ⟨h1, Or.inr ?_⟩
          intro kit hkit hlen bid hbid
          have hmem : bid ∈ (data.kits.filter fun k => 2 ≤ k.book_ids.length).flatMap
              Kit.book_ids := by
            rw [List.mem_flatMap]
            exact ⟨kit, List.mem_filter.mpr ⟨hkit, by simpa using hlen⟩, hbid⟩
          have hne := List.find?_eq_none.mp hg bid hmem
          rcases ho : bookMap data bid with _ | bk
          · exact absurd (by rw [ho]; rfl) hne
          · rfl
        · intro _
          rfl
      · have hbuild : buildModel data = Except.error (PyError.keyError bid) := by
          unfold buildModel
          rw [hf, if_neg hsup, hg]
        rw [hbuild]
        constructor
        · intro hcontra
          exact absurd hcontra (by simp)
        · rintro ⟨-, hor⟩
          exfalso
          rcases hor with hempty | hall
          · rw [hempty] at hsup
            exact hsup rfl
          · have hbidmem := List.mem_of_find?_eq_some hg
            have hbidnone : (bookMap data bid).isNone = true := by
              simpa using List.find?_some hg
            obtain ⟨kit, hkitf, hbid⟩ := List.mem_flatMap.mp hbidmem
            have hkit := List.mem_filter.mp hkitf
            have hsome := hall kit hkit.1 (by simpa using hkit.2) bid hbid
            rw [Option.isNone_iff_eq_none.mp hbidnone] at hsome
            exact absurd hsome (by simp)
  · have hbuild : buildModel data = Except.error (PyError.valueError
        ("Book " ++ b.id ++ " has no valid (supplier, method) assignments")) := by
      unfold buildModel
      rw [hf]
    rw [hbuild]
    constructor
    · intro hcontra
      exact absurd hcontra (by simp)
    · rintro ⟨h1, -⟩
      exfalso
      have hbmem := List.mem_of_find?_eq_some hf
      have hbempty := List.find?_some hf
      exact h1 b hbmem (List.isEmpty_iff.mp (by simpa using hbempty))

-- C5 counterexample
def bookD5 : Book :=
  { id := "b1", title := "B1", brand := "A", production_volume := 10,
    available_printing_methods := ["digital"], kit_id := none }

/-- The claim-C5 counterexample: the only cost entry of `b1` is at a
(supplier, method) pair for which the supplier declares no capacity. -/
def D5 : ProblemData :=
  { books := [bookD5], kits := [],
    suppliers := [{ id := "S1", name := "S1", capacities := [("offset", 50)] }],
    costs := [{ book_id := "b1", supplier_id := "S1", printing_method := "digital",
                unit_cost := 2 }],
    config := cfgSB }

def sol5 : Sol := fun k => k == ("b1", "S1", "digital")
def bsi5 : BrandAux := fun k => k == ("b1", "S1")

/-- C5 counterexample: on `D5` the build succeeds, the model admits a solution,
and the extraction assigns the book to a (supplier, method) pair for which the
supplier declares no capacity — contradicting the claim that validation or
model construction fails fatally for such a book. -/
theorem c5_counterexample :
    buildModel D5 = Except.ok () ∧
    Admits D5 sol5 ∧
    ((extractAssignments D5 sol5).map fun a => (a.book_id, a.supplier_id, a.printing_method))
      = [("b1", "S1", "digital")] ∧
    (∀ sup ∈ D5.suppliers, ∀ mc ∈ sup.capacities, mc.1 ≠ "digital") := by
  refine ⟨rfl, ⟨auxFalse, bsi5, ⟨?_, ?_, ?_, ?_⟩, fun _ => ?_⟩, by decide, by decide⟩
  · unfold AssignmentConstraints; decide
  · unfold KitConstraints; decide
  · unfold BrandConstraints; decide
  · unfold CapacityConstraints; decide
  · unfold SymmetryConstraints; decide

/-- C9. With the validated strictly-positive capacities, every reported
utilization entry equals used-volume / declared capacity * 100 (the absent-usage
case contributes 0 through `volumeUsed`), and the divisor is never zero. -/
theorem c9_utilization_never_divides_by_zero (data : ProblemData)
    (assignments : List Assignment)
    (hpos : ∀ sup ∈ data.suppliers, ∀ mc ∈ sup.capacities, 0 < mc.2) :
    calculateUtilization data assignments
      = (data.suppliers.map fun sup => (sup.id, sup.capacities.map fun mc =>
          (mc.1, (volumeUsed assignments sup.id mc.1 : ℚ) / (mc.2 : ℚ) * 100))) ∧
    ∀ sup ∈ data.suppliers, ∀ mc ∈ sup.capacities, ((mc.2 : ℚ) ≠ 0) := by
  constructor
  · unfold calculateUtilization
    apply List.map_congr_left
    intro sup hsup
    refine congrArg (fun l => (sup.id, l)) ?_
    apply List.map_congr_left
    intro mc hmc
    rw [if_pos (hpos sup hsup mc hmc)]
  · intro sup hsup mc hmc
    exact_mod_cast (hpos sup hsup mc hmc).ne'

theorem c9_witness :
    (∀ sup ∈ W10.suppliers, ∀ mc ∈ sup.capacities, 0 < mc.2) ∧
    (calculateUtilization W10 (extractAssignments W10 solW)
      = (W10.suppliers.map fun sup => (sup.id, sup.capacities.map fun mc =>
          (mc.1, (volumeUsed (extractAssignments W10 solW) sup.id mc.1 : ℚ) / (mc.2 : ℚ) * 100))) ∧
    ∀ sup ∈ W10.suppliers, ∀ mc ∈ sup.capacities, ((mc.2 : ℚ) ≠ 0)) :=
  ⟨by decide, c9_utilization_never_divides_by_zero W10 (extractAssignments W10 solW) (by decide)⟩

/-- C10. For every ProblemData with a non-empty book list that passes the five
preceding cross-reference checks, `_validate_problem_data` raises AttributeError
instead of returning: it reads `book.printing_method`, which the Book model does
not define. -/
theorem c10_validation_always_raises (data : ProblemData) (hne : data.books ≠ [])
    (h1 : checkKitRefs data = .ok ()) (h2 : checkCostRefs data = .ok ())
    (h3 : checkBooksHaveCosts data = .ok ()) (h4 : checkKitDups data = .ok ())
    (h5 : checkKitIdConsistency data = .ok ()) :
    validateProblemData data =
      .error (.attributeError "Book object has no attribute printing_method") := by
  unfold validateProblemData
  rw [h1, h2, h3, h4, h5]
  obtain ⟨b, rest, hbr⟩ : ∃ b rest, data.books = b :: rest := by
    cases hb : data.books with
    | nil => exact absurd hb hne
    | cons b rest => exact ⟨b, rest, rfl⟩
  rw [hbr]
  rfl

theorem c10_witness :
    W10.books ≠ [] ∧ checkKitRefs W10 = .ok () ∧ checkCostRefs W10 = .ok () ∧
    checkBooksHaveCosts W10 = .ok () ∧ checkKitDups W10 = .ok () ∧
    checkKitIdConsistency W10 = .ok () ∧
    validateProblemData W10 =
      .error (.attributeError "Book object has no attribute printing_method") :=
  ⟨by decide, rfl, rfl, rfl, rfl, rfl,
    c10_validation_always_raises W10 (by decide) rfl rfl rfl rfl rfl⟩

-- ### C2: kit cohesion is silently skipped for members without candidates

def bookK1 : Book :=
  { id := "b1", title := "B1", brand := "A", production_volume := 10,
    available_printing_methods := ["m"], kit_id := some "k1" }

def bookK2 : Book :=
  { id := "b2", title := "B2", brand := "B", production_volume := 10,
    available_printing_methods := ["m"], kit_id := some "k1" }

/-- Failing input for kit cohesion: kit k1 = {b1, b2}, b1 priced only at S1,
b2 priced only at S2. -/
def D2 : ProblemData :=
  { books := [bookK1, bookK2],
    kits := [{ id := "k1", name := "K1", book_ids := ["b1", "b2"] }],
    suppliers := [
      { id := "S1", name := "S1", capacities := [("m", 100)] },
      { id := "S2", name := "S2", capacities := [("m", 100)] }],
    costs := [
      { book_id := "b1", supplier_id := "S1", printing_method := "m", unit_cost := 1 },
      { book_id := "b2", supplier_id := "S2", printing_method := "m", unit_cost := 1 }],
    config := cfgNoSB }

def sol2 : Sol := fun k => k == ("b1", "S1", "m") || k == ("b2", "S2", "m")
def ksv2 : KitAux := fun _ => true
def bsi2 : BrandAux := fun k => k == ("b1", "S1") || k == ("b2", "S2")

/-- C2 (code bug). On `D2` the built model admits a solution in which the two
members of the size-2 kit k1 are extracted at different suppliers: the
per-supplier cohesion equalities are skipped whenever the member (or the
reference) has no candidate variables at that supplier, so nothing ties b2's
supplier to b1's. This contradicts the docstring of
`_add_kit_cohesion_constraints` ("All books in a kit must be assigned to the
same supplier") and the spec. -/
theorem c2_kit_cohesion_violated :
    Admits D2 sol2 ∧
    (∃ kit ∈ D2.kits, kit.book_ids = ["b1", "b2"] ∧ 2 ≤ kit.book_ids.length) ∧
    ((extractAssignments D2 sol2).map fun a => (a.book_id, a.supplier_id))
      = [("b1", "S1"), ("b2", "S2")] := by
  refine ⟨⟨ksv2, bsi2, ⟨?_, ?_, ?_, ?_⟩, fun h => ?_⟩, by decide, by decide⟩
  · unfold AssignmentConstraints; decide
  · unfold KitConstraints; decide
  · unfold BrandConstraints; decide
  · unfold CapacityConstraints; decide
  · exact absurd h (by decide)

-- ### C8: symmetry breaking can destroy feasibility

def bookS1 : Book :=
  { id := "b1", title := "B1", brand := "A", production_volume := 10,
    available_printing_methods := ["m"], kit_id := none }

def bookS2 : Book :=
  { id := "b2", title := "B2", brand := "B", production_volume := 5,
    available_printing_methods := ["m"], kit_id := none }

def suppliersD8 : List Supplier := [
  { id := "S1", name := "S1", capacities := [("m", 15)] },
  { id := "S2", name := "S2", capacities := [("m", 15)] }]

def costsD8 : List Cost := [
  { book_id := "b1", supplier_id := "S2", printing_method := "m", unit_cost := 1 },
  { book_id := "b2", supplier_id := "S1", printing_method := "m", unit_cost := 1 },
  { book_id := "b2", supplier_id := "S2", printing_method := "m", unit_cost := 1 }]

/-- Failing input for symmetry breaking, with the toggle enabled: S1 and S2
have identical capacity maps, b1 is priced only at S2, b2 at both (same cost),
so the presence-filtered identical-costs check passes and the ordering
constraint volume(S1) >= volume(S2) is posted even though the suppliers do not
price the same books. -/
def D8on : ProblemData :=
  { books := [bookS1, bookS2], kits := [], suppliers := suppliersD8,
    costs := costsD8, config := cfgSB }

/-- The same instance with symmetry breaking disabled. -/
def D8off : ProblemData :=
  { books := [bookS1, bookS2], kits := [], suppliers := suppliersD8,
    costs := costsD8, config := cfgNoSB }

def sol8 : Sol := fun k => k == ("b1", "S2", "m") || k == ("b2", "S1", "m")
def bsi8 : BrandAux := fun k => k == ("b1", "S2") || k == ("b2", "S1")

/-- C8 (code bug). The instance is feasible with symmetry breaking disabled,
but the built model with symmetry breaking enabled admits no solution at all:
b1 must go to S2 (volume 10), while the posted ordering constraint demands
volume(S1) >= volume(S2) and S1 can receive at most volume 5. Hence enabling
the toggle changes the optimal objective value (from an attained optimum to
infeasibility), contradicting the claim. -/
theorem c8_symmetry_breaking_changes_feasibility :
    (∃ sol : Sol, Admits D8off sol) ∧ (∀ sol : Sol, ¬ Admits D8on sol) := by
  constructor
  · refine ⟨sol8, auxFalse, bsi8, ⟨?_, ?_, ?_, ?_⟩, fun h => ?_⟩
    · unfold AssignmentConstraints; decide
    · unfold KitConstraints; decide
    · unfold BrandConstraints; decide
    · unfold CapacityConstraints; decide
    · exact absurd h (by decide)
  · rintro sol ⟨ksv, bsi, ⟨hA, -, -, -⟩, hs⟩
    have h1 := hA bookS1 (by decide)
    rw [show bookCandidates D8on bookS1 = [("b1", "S2", "m")] from by decide] at h1
    simp only [sumX, List.map_cons, List.map_nil, List.sum_cons, List.sum_nil,
      add_zero] at h1
    have hk1 : sol ("b1", "S2", "m") = true := by
      rcases h : sol ("b1", "S2", "m")
      · rw [h] at h1
        simp [boolVal] at h1
      · rfl
    have hg := hs (by decide) ([("m", 15)], ["S1", "S2"])
      (by rw [show supplierGroups D8on = [([("m", 15)], ["S1", "S2"])] from by decide]
          simp)
      (by simp) (by decide) ("S1", "S2") (by simp [adjacentPairs]) (by decide) (by decide)
    unfold supplierVolume at hg
    rw [show supplierVolumeTerms D8on "S1" = [("b2", "m", 5)] from by decide,
        show supplierVolumeTerms D8on "S2" = [("b1", "m", 10), ("b2", "m", 5)] from by decide]
      at hg
    simp only [List.map_cons, List.map_nil, List.sum_cons, List.sum_nil, add_zero] at hg
    rw [hk1] at hg
    rcases h2 : sol ("b2", "S1", "m") <;> rcases h3 : sol ("b2", "S2", "m") <;>
      rw [h2, h3] at hg <;> simp [boolVal] at hg

-- ### C7: objective rounding tolerance

theorem costMatrix_mem (data : ProblemData) (b s m : String) (c : ℚ)
    (h : costMatrix data b s m = some c) : ∃ cost ∈ data.costs, cost.unit_cost = c := by
  unfold costMatrix at h
  obtain ⟨cost, hlast, hval⟩ := Option.map_eq_some'.mp h
  have hmem : cost ∈ data.costs.filter fun c =>
      c.book_id == b && c.supplier_id == s && c.printing_method == m :=
    List.mem_of_mem_getLast? hlast
  exact ⟨cost, (List.mem_filter.mp hmem).1, hval⟩

theorem sum_map_sub (f g : α → ℚ) (l : List α) :
    (l.map f).sum - (l.map g).sum = (l.map fun x => f x - g x).sum := by
  induction l with
  | nil => simp
  | cons a l ih => simp [List.map_cons, List.sum_cons, ← ih]; ring

theorem sum_map_le_length (f : α → ℚ) (l : List α) (h : ∀ x ∈ l, f x ≤ 1) :
    (l.map f).sum ≤ (l.length : ℚ) := by
  induction l with
  | nil => simp
  | cons a l ih =>
      simp only [List.map_cons, List.sum_cons, List.length_cons]
      have h1 := h a (by simp)
      have h2 := ih fun x hx => h x (by simp [hx])
      push_cast
      linarith

/-- Per book: the scaled-objective term the model charges for the book versus
the extracted total_cost of the book; truncation loses at most one scale unit. -/
theorem perBookObjective (data : ProblemData) (sol : Sol) (book : Book)
    (h : sumX sol (bookCandidates data book) = 1)
    (hpos : ∀ c ∈ data.costs, 0 < c.unit_cost) :
    ((((bookCandidates data book).map fun k =>
        scaledCoeff data book k.2.1 k.2.2 * boolVal (sol k)).sum : ℤ) : ℚ)
        ≤ 1000 * ((bookChunk data sol book).map Assignment.total_cost).sum ∧
    1000 * ((bookChunk data sol book).map Assignment.total_cost).sum
        - ((((bookCandidates data book).map fun k =>
            scaledCoeff data book k.2.1 k.2.2 * boolVal (sol k)).sum : ℤ) : ℚ) ≤ 1 := by
  obtain ⟨sup, m, hsup, hfs, hmmem, hhas, hsol, hchunk, hcount, hkmem⟩ :=
    bookSelection data sol book h
  have hinner := sum_mul_boolVal_unique (fun k => scaledCoeff data book k.2.1 k.2.2)
      (fun k => sol k) (bookCandidates data book) (book.id, sup.id, m) hcount hsol hkmem
  simp only at hinner
  have hsome : (costMatrix data book.id sup.id m).isSome := by
    unfold hasVar at hhas
    exact (Bool.and_eq_true_iff.mp hhas).2
  obtain ⟨c, hc⟩ := Option.isSome_iff_exists.mp hsome
  obtain ⟨cost, hcost, hcval⟩ := costMatrix_mem data book.id sup.id m c hc
  have hcpos : 0 < c := hcval ▸ hpos cost hcost
  have hq0 : (0:ℚ) ≤ c * (book.production_volume : ℚ) * 1000 := by positivity
  have hcoeff : scaledCoeff data book sup.id m
      = ⌊c * (book.production_volume : ℚ) * 1000⌋ := by
    unfold scaledCoeff pyInt
    rw [hc, Option.getD_some, if_pos hq0]
  have htot : ((bookChunk data sol book).map Assignment.total_cost).sum
      = c * (book.production_volume : ℚ) := by
    rw [hchunk]
    simp only [List.map_cons, List.map_nil, List.sum_cons, List.sum_nil, add_zero]
    unfold mkAssignment
    simp only [hc, Option.getD_some]
  rw [hinner, hcoeff, htot]
  constructor
  · have hfl := Int.floor_le (c * (book.production_volume : ℚ) * 1000)
    calc ((⌊c * (book.production_volume : ℚ) * 1000⌋ : ℤ) : ℚ)
        ≤ c * (book.production_volume : ℚ) * 1000 := hfl
      _ = 1000 * (c * (book.production_volume : ℚ)) := by ring
  · have hlt := Int.lt_floor_add_one (c * (book.production_volume : ℚ) * 1000)
    have : 1000 * (c * (book.production_volume : ℚ))
        = c * (book.production_volume : ℚ) * 1000 := by ring
    rw [this]
    linarith

/-- C7 (amended). For any admitted solution, the reported objective value is
at most the sum of the extracted total costs, and the gap is at most one scale
unit (0.001) per book, rather than 0.001 in total. -/
theorem c7_amended_objective_within_per_book_tolerance (data : ProblemData) (sol : Sol)
    (hadm : Admits data sol) (hpos : ∀ c ∈ data.costs, 0 < c.unit_cost) :
    objectiveValue data sol ≤ ((extractAssignments data sol).map Assignment.total_cost).sum ∧
    ((extractAssignments data sol).map Assignment.total_cost).sum - objectiveValue data sol
      ≤ (data.books.length : ℚ) / 1000 := by
  obtain ⟨ksv, bsi, ⟨hA, -, -, -⟩, -⟩ := hadm
  have hS : ((extractAssignments data sol).map Assignment.total_cost).sum
      = (data.books.map fun book =>
          ((bookChunk data sol book).map Assignment.total_cost).sum).sum := by
    unfold extractAssignments
    exact sum_map_flatMap _ _ _
  have hO : objectiveValue data sol
      = ((data.books.map fun book =>
          ((((bookCandidates data book).map fun k =>
            scaledCoeff data book k.2.1 k.2.2 * boolVal (sol k)).sum : ℤ) : ℚ)).sum) / 1000 := by
    unfold objectiveValue scaledObjective
    rw [Int.cast_list_sum, List.map_map]
    rfl
  have hper : ∀ book ∈ data.books,
      ((((bookCandidates data book).map fun k =>
          scaledCoeff data book k.2.1 k.2.2 * boolVal (sol k)).sum : ℤ) : ℚ)
          ≤ 1000 * ((bookChunk data sol book).map Assignment.total_cost).sum ∧
      1000 * ((bookChunk data sol book).map Assignment.total_cost).sum
          - ((((bookCandidates data book).map fun k =>
              scaledCoeff data book k.2.1 k.2.2 * boolVal (sol k)).sum : ℤ) : ℚ) ≤ 1 :=
    fun book hb => perBookObjective data sol book (hA book hb) hpos
  set F := fun book => ((bookChunk data sol book).map Assignment.total_cost).sum with hF
  set G := fun book => ((((bookCandidates data book).map fun k =>
      scaledCoeff data book k.2.1 k.2.2 * boolVal (sol k)).sum : ℤ) : ℚ) with hG
  have hkey1 : (data.books.map G).sum ≤ 1000 * (data.books.map F).sum := by
    rw [← List.sum_map_mul_left]
    exact List.sum_le_sum fun b hb => (hper b hb).1
  have hkey2 : 1000 * (data.books.map F).sum - (data.books.map G).sum
      ≤ (data.books.length : ℚ) := by
    rw [← List.sum_map_mul_left, sum_map_sub]
    exact sum_map_le_length _ _ fun b hb => (hper b hb).2
  rw [hS, hO]
  constructor
  · rw [div_le_iff₀ (by norm_num : (0:ℚ) < 1000)]
    calc (data.books.map G).sum ≤ 1000 * (data.books.map F).sum := hkey1
      _ = (data.books.map F).sum * 1000 := by ring
  · rw [sub_le_iff_le_add, div_add_div_same, le_div_iff₀ (by norm_num : (0:ℚ) < 1000)]
    linarith

def bookC1 : Book :=
  { id := "c1", title := "C1", brand := "A", production_volume := 1,
    available_printing_methods := ["m"], kit_id := none }

def bookC2 : Book :=
  { id := "c2", title := "C2", brand := "B", production_volume := 1,
    available_printing_methods := ["m"], kit_id := none }

/-- Failing input for the total rounding tolerance: two books with unit cost
0.0019 and volume 1, so each scaled coefficient int(1.9) = 1 truncates away
0.0009. -/
def D7 : ProblemData :=
  { books := [bookC1, bookC2], kits := [],
    suppliers := [{ id := "T1", name := "T1", capacities := [("m", 10)] }],
    costs := [
      { book_id := "c1", supplier_id := "T1", printing_method := "m", unit_cost := 19/10000 },
      { book_id := "c2", supplier_id := "T1", printing_method := "m", unit_cost := 19/10000 }],
    config := cfgNoSB }

def sol7 : Sol := fun k => k == ("c1", "T1", "m") || k == ("c2", "T1", "m")
def bsi7 : BrandAux := fun k => k == ("c1", "T1") || k == ("c2", "T1")

theorem scaledCoeffC1 : scaledCoeff D7 bookC1 "T1" "m" = 1 := by
  unfold scaledCoeff
  rw [show costMatrix D7 bookC1.id "T1" "m" = some (19/10000 : ℚ) from rfl]
  simp only [Option.getD_some]
  rw [show ((19/10000 : ℚ) * ((bookC1.production_volume : ℕ) : ℚ) * 1000) = 19/10 from by
    norm_num [bookC1]]
  unfold pyInt
  rw [if_pos (by norm_num)]
  rw [Int.floor_eq_iff]
  constructor <;> norm_num

theorem scaledCoeffC2 : scaledCoeff D7 bookC2 "T1" "m" = 1 := by
  unfold scaledCoeff
  rw [show costMatrix D7 bookC2.id "T1" "m" = some (19/10000 : ℚ) from rfl]
  simp only [Option.getD_some]
  rw [show ((19/10000 : ℚ) * ((bookC2.production_volume : ℕ) : ℚ) * 1000) = 19/10 from by
    norm_num [bookC2]]
  unfold pyInt
  rw [if_pos (by norm_num)]
  rw [Int.floor_eq_iff]
  constructor <;> norm_num

theorem scaledObjectiveD7 : scaledObjective D7 sol7 = 2 := by
  unfold scaledObjective
  rw [show D7.books = [bookC1, bookC2] from rfl]
  simp only [List.map_cons, List.map_nil, List.sum_cons, List.sum_nil]
  rw [show bookCandidates D7 bookC1 = [("c1", "T1", "m")] from by decide,
      show bookCandidates D7 bookC2 = [("c2", "T1", "m")] from by decide]
  simp only [List.map_cons, List.map_nil, List.sum_cons, List.sum_nil, add_zero]
  rw [show sol7 ("c1", "T1", "m") = true from rfl,
      show sol7 ("c2", "T1", "m") = true from rfl]
  rw [scaledCoeffC1, scaledCoeffC2]
  simp [boolVal]

/-- C7 counterexample: on `D7` the extracted total cost is 0.0038 while the
reported objective value is 0.0020, a gap of 0.0018 > 0.001, violating the
claimed total tolerance of one scale unit (0.001). -/
theorem c7_counterexample :
    Admits D7 sol7 ∧
    ((extractAssignments D7 sol7).map Assignment.total_cost).sum
      - objectiveValue D7 sol7 > 1/1000 := by
  constructor
  · refine ⟨auxFalse, bsi7, ⟨?_, ?_, ?_, ?_⟩, fun h => ?_⟩
    · unfold AssignmentConstraints; decide
    · unfold KitConstraints; decide
    · unfold BrandConstraints; decide
    · unfold CapacityConstraints; decide
    · exact absurd h (by decide)
  · have hS : ((extractAssignments D7 sol7).map Assignment.total_cost).sum = 19/5000 := by
      rw [show ((extractAssignments D7 sol7).map Assignment.total_cost).sum
          = (19/10000 : ℚ) * ((1:ℕ) : ℚ) + ((19/10000 : ℚ) * ((1:ℕ) : ℚ) + 0) from rfl]
      norm_num
    have hO : objectiveValue D7 sol7 = 1/500 := by
      unfold objectiveValue
      rw [scaledObjectiveD7]
      norm_num
    rw [hS, hO]
    norm_num

/-- Witness for the amended C7 statement at the concrete instance `W10`. -/
theorem c7_amended_witness :
    Admits W10 solW ∧ (∀ c ∈ W10.costs, 0 < c.unit_cost) ∧
    (objectiveValue W10 solW
        ≤ ((extractAssignments W10 solW).map Assignment.total_cost).sum ∧
     ((extractAssignments W10 solW).map Assignment.total_cost).sum
        - objectiveValue W10 solW ≤ (W10.books.length : ℚ) / 1000) :=
  have hpos : ∀ c ∈ W10.costs, 0 < c.unit_cost := by
    intro c hc
    rw [List.mem_singleton.mp hc]
    exact (by norm_num : (0:ℚ) < 3)
  ⟨admitsW, hpos, c7_amended_objective_within_per_book_tolerance W10 solW admitsW hpos⟩

-- ### C3: brand fairness cap at item granularity

/-- The book with id `bid` has an extracted Assignment at supplier id `sid`. -/
def placedAt (data : ProblemData) (sol : Sol) (bid sid : String) : Bool :=
  (extractAssignments data sol).any fun a => a.book_id == bid && a.supplier_id == sid

/-- The items of one brand placed at one supplier: a standalone book (kit_id
none) placed there counts as one item tagged `inl` by its book id; a whole kit
counts as one item tagged `inr` by its kit id as soon as one of its members of
the brand is placed there. -/
def itemsOfBrandAt (data : ProblemData) (sol : Sol) (brand sid : String) :
    Finset (String ⊕ String) :=
  ((data.books.filter fun b =>
      b.brand == brand && b.kit_id == none && placedAt data sol b.id sid).map
    (fun b => Sum.inl b.id)).toFinset ∪
  ((data.kits.filter fun k => data.books.any fun b =>
      b.brand == brand && k.book_ids.contains b.id && placedAt data sol b.id sid).map
    (fun k => Sum.inr k.id)).toFinset

theorem getLast?_eq_of_all_eq (l : List α) (b : α) (hne : l ≠ []) (hall : ∀ x ∈ l, x = b) :
    l.getLast? = some b := by
  induction l with
  | nil => exact absurd rfl hne
  | cons a l ih =>
      cases l with
      | nil => simp [hall a (by simp)]
      | cons c t =>
          rw [List.getLast?_cons_cons]
          exact ih (by simp) fun x hx => hall x (by simp [hx])

theorem bookMap_eq_self (data : ProblemData) (hnd : (data.books.map Book.id).Nodup)
    (b : Book) (hb : b ∈ data.books) : bookMap data b.id = some b := by
  unfold bookMap
  apply getLast?_eq_of_all_eq
  · intro hnil
    have : b ∈ data.books.filter fun x => x.id == b.id :=
      List.mem_filter.mpr ⟨hb, by simp⟩
    rw [hnil] at this
    exact absurd this (by simp)
  · intro x hx
    have hx2 := List.mem_filter.mp hx
    exact List.inj_on_of_nodup_map hnd hx2.1 hb (by simpa using hx2.2)

/-- If a book is placed at a supplier, its first-selected method there exists. -/
theorem placed_firstSelected (data : ProblemData) (sol : Sol)
    (hbid : (data.books.map Book.id).Nodup) (hsid : (data.suppliers.map Supplier.id).Nodup)
    (b : Book) (hb : b ∈ data.books) (sup : Supplier) (hsup : sup ∈ data.suppliers)
    (hplaced : placedAt data sol b.id sup.id = true) :
    ∃ m, firstSelected data sol b sup.id = some m := by
  unfold placedAt at hplaced
  obtain ⟨a, hamem, hprop⟩ := List.any_eq_true.mp hplaced
  have hpb : a.book_id = b.id := of_decide_eq_true (Bool.and_eq_true_iff.mp hprop).1
  have hps : a.supplier_id = sup.id := of_decide_eq_true (Bool.and_eq_true_iff.mp hprop).2
  unfold extractAssignments at hamem
  obtain ⟨b2, hb2, hchunk⟩ := List.mem_flatMap.mp hamem
  have hb2id : a.book_id = b2.id := mem_bookChunk_book_id data sol b2 a hchunk
  have hbb : b2 = b := List.inj_on_of_nodup_map hbid hb2 hb (by rw [← hb2id, hpb])
  subst hbb
  unfold bookChunk at hchunk
  obtain ⟨sup2, hsup2, hmap⟩ := List.mem_filterMap.mp hchunk
  obtain ⟨m, hm, ha⟩ := Option.map_eq_some'.mp hmap
  have hsid2 : sup2.id = sup.id := by
    rw [← hps, ← ha]
    rfl
  have hss : sup2 = sup := List.inj_on_of_nodup_map hsid hsup2 hsup hsid2
  subst hss
  exact ⟨m, hm⟩

/-- A placed book's brand indicator is forced to true by the equality
constraints of `_add_brand_diversification_constraints`. -/
theorem placed_bsi_true (data : ProblemData) (sol : Sol) (bsi : BrandAux)
    (hbid : (data.books.map Book.id).Nodup) (hsid : (data.suppliers.map Supplier.id).Nodup)
    (b : Book) (hb : b ∈ data.books) (sup : Supplier) (hsup : sup ∈ data.suppliers)
    (hB : BrandConstraints data sol bsi)
    (hplaced : placedAt data sol b.id sup.id = true) :
    bsi (b.id, sup.id) = true ∧ memberCandidatesAt data b.id sup.id ≠ [] := by
  obtain ⟨m, hm⟩ := placed_firstSelected data sol hbid hsid b hb sup hsup hplaced
  have hpm := List.find?_some hm
  have hmmem := List.mem_of_find?_eq_some hm
  have hhas : hasVar data b.id sup.id m = true := (Bool.and_eq_true_iff.mp hpm).1
  have hsol : sol (b.id, sup.id, m) = true := (Bool.and_eq_true_iff.mp hpm).2
  have hcand : (b.id, sup.id, m) ∈ memberCandidatesAt data b.id sup.id := by
    unfold memberCandidatesAt
    rw [bookMap_eq_self data hbid b hb]
    rw [List.mem_filterMap]
    exact ⟨m, hmmem, by rw [if_pos hhas]⟩
  have hne : memberCandidatesAt data b.id sup.id ≠ [] := by
    intro hcontra
    rw [hcontra] at hcand
    exact absurd hcand (by simp)
  have hbrand : b.brand ∈ data.books.map Book.brand := List.mem_map_of_mem Book.brand hb
  have hEq := (hB b.brand hbrand sup hsup).1 b.id
    (List.mem_map_of_mem Book.id (List.mem_filter.mpr ⟨hb, by simp⟩))
  refine ⟨?_, hne⟩
  rcases hval : bsi (b.id, sup.id)
  · exfalso
    rw [hval] at hEq
    have hle : boolVal (sol (b.id, sup.id, m))
        ≤ sumX sol (memberCandidatesAt data b.id sup.id) := by
      unfold sumX
      exact List.single_le_sum
        (by intro x hx
            obtain ⟨k, -, rfl⟩ := List.mem_map.mp hx
            exact boolVal_nonneg _) _
        (List.mem_map_of_mem (fun k => boolVal (sol k)) hcand)
    rw [hEq, hsol] at hle
    simp [boolVal] at hle
  · rfl

theorem nodup_length_le_countP [DecidableEq α] (S L : List α) (q : α → Bool)
    (hS : S.Nodup) (h : ∀ x ∈ S, x ∈ L ∧ q x = true) : S.length ≤ L.countP q := by
  calc S.length = S.toFinset.card := (List.toFinset_card_of_nodup hS).symm
    _ ≤ (L.filter q).toFinset.card := by
        apply Finset.card_le_card
        intro x hx
        rw [List.mem_toFinset] at hx
        rw [List.mem_toFinset]
        exact List.mem_filter.mpr ⟨(h x hx).1, (h x hx).2⟩
    _ ≤ (L.filter q).length := List.toFinset_card_le _
    _ = L.countP q := (List.countP_eq_length_filter q L).symm

/-- The model bounds the number of books of one brand placed at one supplier by
the configured ceiling. -/
theorem brand_book_count_le (data : ProblemData) (sol : Sol) (bsi : BrandAux)
    (hB : BrandConstraints data sol bsi)
    (hbid : (data.books.map Book.id).Nodup) (hsid : (data.suppliers.map Supplier.id).Nodup)
    (brand : String) (sup : Supplier) (hsup : sup ∈ data.suppliers) :
    (data.books.filter fun b => b.brand == brand && placedAt data sol b.id sup.id).length
      ≤ data.config.max_volumes_per_brand_per_supplier := by
  by_cases hemp : (data.books.filter fun b =>
      b.brand == brand && placedAt data sol b.id sup.id) = []
  · rw [hemp]
    simp
  · obtain ⟨b0, hb0⟩ := List.exists_mem_of_ne_nil _ hemp
    have hb0f := List.mem_filter.mp hb0
    have hb0brand : b0.brand = brand := of_decide_eq_true (Bool.and_eq_true_iff.mp hb0f.2).1
    have hbrandmem : brand ∈ data.books.map Book.brand :=
      hb0brand ▸ List.mem_map_of_mem Book.brand hb0f.1
    have hprop : ∀ b ∈ data.books.filter fun b =>
        b.brand == brand && placedAt data sol b.id sup.id,
        b.id ∈ ((brandBooks data brand).filter fun bid =>
          !(memberCandidatesAt data bid sup.id).isEmpty) ∧ bsi (b.id, sup.id) = true := by
      intro b hbf
      have hf := List.mem_filter.mp hbf
      have hbrand : b.brand = brand := of_decide_eq_true (Bool.and_eq_true_iff.mp hf.2).1
      have hplaced : placedAt data sol b.id sup.id = true :=
        (Bool.and_eq_true_iff.mp hf.2).2
      obtain ⟨hbsi, hne⟩ := placed_bsi_true data sol bsi hbid hsid b hf.1 sup hsup hB hplaced
      refine ⟨List.mem_filter.mpr ⟨?_, by simpa using hne⟩, hbsi⟩
      unfold brandBooks
      exact List.mem_map_of_mem Book.id (List.mem_filter.mpr ⟨hf.1, by simp [hbrand]⟩)
    have hguard : ((brandBooks data brand).filter fun bid =>
        !(memberCandidatesAt data bid sup.id).isEmpty) ≠ [] := by
      intro hcontra
      have := (hprop b0 hb0).1
      rw [hcontra] at this
      exact absurd this (by simp)
    have hcap := (hB brand hbrandmem sup hsup).2 hguard
    rw [sum_boolVal (fun bid => bsi (bid, sup.id))] at hcap
    have hcapn : ((brandBooks data brand).filter fun bid =>
        !(memberCandidatesAt data bid sup.id).isEmpty).countP (fun bid => bsi (bid, sup.id))
          ≤ data.config.max_volumes_per_brand_per_supplier := by
      exact_mod_cast hcap
    have hnodupS : ((data.books.filter fun b =>
        b.brand == brand && placedAt data sol b.id sup.id).map Book.id).Nodup :=
      hbid.sublist (List.Sublist.map Book.id (List.filter_sublist data.books))
    have hlen := nodup_length_le_countP
      ((data.books.filter fun b => b.brand == brand && placedAt data sol b.id sup.id).map Book.id)
      ((brandBooks data brand).filter fun bid => !(memberCandidatesAt data bid sup.id).isEmpty)
      (fun bid => bsi (bid, sup.id)) hnodupS ?_
    · rw [List.length_map] at hlen
      exact le_trans hlen hcapn
    · intro bid hbidmem
      obtain ⟨b, hbf, rfl⟩ := List.mem_map.mp hbidmem
      exact hprop b hbf

/-- Map each item to a placed book id of the brand: a standalone item to its
own book id, a kit item to the first member book of the brand found placed at
the supplier. -/
def itemWitness (data : ProblemData) (sol : Sol) (brand sid : String) :
    String ⊕ String → String
  | Sum.inl bid => bid
  | Sum.inr kid =>
      ((data.books.find? (fun b => b.brand == brand &&
          (data.kits.any fun k => k.id == kid && k.book_ids.contains b.id) &&
          placedAt data sol b.id sid)).map Book.id).getD ""

theorem mem_items_inl (data : ProblemData) (sol : Sol) (brand sid bid : String) :
    Sum.inl bid ∈ itemsOfBrandAt data sol brand sid ↔
      ∃ b ∈ data.books, b.brand = brand ∧ b.kit_id = none ∧
        placedAt data sol b.id sid = true ∧ b.id = bid := by
  unfold itemsOfBrandAt
  rw [Finset.mem_union]
  constructor
  · intro h
    rcases h with h | h
    · rw [List.mem_toFinset] at h
      obtain ⟨b, hbf, hinj⟩ := List.mem_map.mp h
      have hf := List.mem_filter.mp hbf
      have h1 := (Bool.and_eq_true_iff.mp hf.2).1
      have h2 := (Bool.and_eq_true_iff.mp hf.2).2
      have h11 := (Bool.and_eq_true_iff.mp h1).1
      have h12 := (Bool.and_eq_true_iff.mp h1).2
      exact ⟨b, hf.1, of_decide_eq_true h11, by simpa using h12, h2,
        Sum.inl.inj hinj⟩
    · rw [List.mem_toFinset] at h
      obtain ⟨k, hkf, hinj⟩ := List.mem_map.mp h
      exact absurd hinj (by simp)
  · rintro ⟨b, hb, hbrand, hkit, hplaced, rfl⟩
    left
    rw [List.mem_toFinset]
    refine List.mem_map_of_mem (fun b : Book => Sum.inl b.id) ?_
    refine List.mem_filter.mpr ⟨hb, ?_⟩
    rw [Bool.and_eq_true_iff, Bool.and_eq_true_iff]
    exact ⟨⟨by simp [hbrand], by simp [hkit]⟩, hplaced⟩

theorem mem_items_inr (data : ProblemData) (sol : Sol) (brand sid kid : String) :
    Sum.inr kid ∈ itemsOfBrandAt data sol brand sid ↔
      ∃ k ∈ data.kits, k.id = kid ∧ ∃ b ∈ data.books, b.brand = brand ∧
        b.id ∈ k.book_ids ∧ placedAt data sol b.id sid = true := by
  unfold itemsOfBrandAt
  rw [Finset.mem_union]
  constructor
  · intro h
    rcases h with h | h
    · rw [List.mem_toFinset] at h
      obtain ⟨b, hbf, hinj⟩ := List.mem_map.mp h
      exact absurd hinj (by simp)
    · rw [List.mem_toFinset] at h
      obtain ⟨k, hkf, hinj⟩ := List.mem_map.mp h
      have hf := List.mem_filter.mp hkf
      obtain ⟨b, hb, hprop⟩ := List.any_eq_true.mp hf.2
      have h1 := (Bool.and_eq_true_iff.mp hprop).1
      have h2 := (Bool.and_eq_true_iff.mp hprop).2
      have h11 := (Bool.and_eq_true_iff.mp h1).1
      have h12 := (Bool.and_eq_true_iff.mp h1).2
      exact ⟨k, hf.1, Sum.inr.inj hinj, b, hb, of_decide_eq_true h11,
        by simpa using h12, h2⟩
  · rintro ⟨k, hk, rfl, b, hb, hbrand, hmem, hplaced⟩
    right
    rw [List.mem_toFinset]
    refine List.mem_map_of_mem (fun k : Kit => Sum.inr k.id) ?_
    refine List.mem_filter.mpr ⟨hk, ?_⟩
    rw [List.any_eq_true]
    refine ⟨b, hb, ?_⟩
    rw [Bool.and_eq_true_iff, Bool.and_eq_true_iff]
    exact ⟨⟨by simp [hbrand], by simpa using hmem⟩, hplaced⟩

/-- On a kit item, the witness is a member book of the brand placed at the
supplier (belonging to a kit with the item's id). -/
theorem itemWitness_inr_spec (data : ProblemData) (sol : Sol) (brand sid kid : String)
    (h : Sum.inr kid ∈ itemsOfBrandAt data sol brand sid) :
    ∃ b ∈ data.books, b.brand = brand ∧ placedAt data sol b.id sid = true ∧
      (∃ k ∈ data.kits, k.id = kid ∧ b.id ∈ k.book_ids) ∧
      itemWitness data sol brand sid (Sum.inr kid) = b.id := by
  obtain ⟨k, hk, hkid, b0, hb0, hbrand0, hmem0, hplaced0⟩ :=
    (mem_items_inr data sol brand sid kid).mp h
  have hfind : (data.books.find? (fun b => b.brand == brand &&
      (data.kits.any fun kk => kk.id == kid && kk.book_ids.contains b.id) &&
      placedAt data sol b.id sid)).isSome := by
    rw [List.find?_isSome]
    refine ⟨b0, hb0, ?_⟩
    rw [Bool.and_eq_true_iff, Bool.and_eq_true_iff]
    refine ⟨⟨by simp [hbrand0], ?_⟩, hplaced0⟩
    rw [List.any_eq_true]
    refine ⟨k, hk, ?_⟩
    rw [Bool.and_eq_true_iff]
    exact ⟨by simp [hkid], by simpa using hmem0⟩
  obtain ⟨b, hb⟩ := Option.isSome_iff_exists.mp hfind
  have hbmem := List.mem_of_find?_eq_some hb
  have hbprop := List.find?_some hb
  have h1 := (Bool.and_eq_true_iff.mp hbprop).1
  have h2 := (Bool.and_eq_true_iff.mp hbprop).2
  have h11 := (Bool.and_eq_true_iff.mp h1).1
  have h12 := (Bool.and_eq_true_iff.mp h1).2
  obtain ⟨kk, hkk, hkkprop⟩ := List.any_eq_true.mp h12
  refine ⟨b, hbmem, of_decide_eq_true h11, h2,
    ⟨kk, hkk, of_decide_eq_true (Bool.and_eq_true_iff.mp hkkprop).1,
      by simpa using (Bool.and_eq_true_iff.mp hkkprop).2⟩, ?_⟩
  simp only [itemWitness, hb, Option.map_some', Option.getD_some]

/-- C3. In any admitted solution, for every brand and every supplier, the
number of items of that brand placed at that supplier — a standalone book or a
whole kit each counting once — is at most the configured ceiling
max_volumes_per_brand_per_supplier (the model's per-book count is an upper
bound for the item count). Uniqueness of book and supplier ids, disjointness of
kits, and kit-membership consistency are the validated data invariants. -/
theorem c3_brand_item_cap (data : ProblemData) (sol : Sol) (hadm : Admits data sol)
    (hbid : (data.books.map Book.id).Nodup)
    (hsid : (data.suppliers.map Supplier.id).Nodup)
    (hdisj : ∀ k1 ∈ data.kits, ∀ k2 ∈ data.kits, ∀ bid : String,
        bid ∈ k1.book_ids → bid ∈ k2.book_ids → k1 = k2)
    (hmemb : ∀ b ∈ data.books, ∀ k ∈ data.kits, b.id ∈ k.book_ids → b.kit_id = some k.id)
    (brand : String) (sup : Supplier) (hsup : sup ∈ data.suppliers) :
    (itemsOfBrandAt data sol brand sup.id).card
      ≤ data.config.max_volumes_per_brand_per_supplier := by
  obtain ⟨ksv, bsi, ⟨-, -, hB, -⟩, -⟩ := hadm
  have hbookcount := brand_book_count_le data sol bsi hB hbid hsid brand sup hsup
  have hinto : ∀ x ∈ itemsOfBrandAt data sol brand sup.id,
      itemWitness data sol brand sup.id x ∈
        ((data.books.filter fun b => b.brand == brand &&
          placedAt data sol b.id sup.id).map Book.id).toFinset := by
    intro x hx
    rw [List.mem_toFinset]
    cases x with
    | inl bid =>
        obtain ⟨b, hb, hbrand, hkit, hplaced, rfl⟩ :=
          (mem_items_inl data sol brand sup.id bid).mp hx
        exact List.mem_map_of_mem Book.id
          (List.mem_filter.mpr ⟨hb, by simp [hbrand, hplaced]⟩)
    | inr kid =>
        obtain ⟨b, hb, hbrand, hplaced, -, hwit⟩ :=
          itemWitness_inr_spec data sol brand sup.id kid hx
        rw [hwit]
        exact List.mem_map_of_mem Book.id
          (List.mem_filter.mpr ⟨hb, by simp [hbrand, hplaced]⟩)
  have hmixed : ∀ bid kid, Sum.inl bid ∈ itemsOfBrandAt data sol brand sup.id →
      Sum.inr kid ∈ itemsOfBrandAt data sol brand sup.id →
      itemWitness data sol brand sup.id (Sum.inl bid)
        ≠ itemWitness data sol brand sup.id (Sum.inr kid) := by
    intro bid kid hxl hxr heq
    obtain ⟨bst, hbst, -, hkitnone, -, hbstid⟩ :=
      (mem_items_inl data sol brand sup.id bid).mp hxl
    obtain ⟨b, hb, -, -, ⟨k, hk, -, hbink⟩, hwit⟩ :=
      itemWitness_inr_spec data sol brand sup.id kid hxr
    have hids : bst.id = b.id := by
      rw [hbstid]
      rw [hwit] at heq
      exact heq
    have hbb : bst = b := List.inj_on_of_nodup_map hbid hbst hb hids
    have hkid2 := hmemb b hb k hk hbink
    rw [← hbb, hkitnone] at hkid2
    exact absurd hkid2 (by simp)
  have hinj : Set.InjOn (itemWitness data sol brand sup.id)
      ↑(itemsOfBrandAt data sol brand sup.id) := by
    intro x hx y hy hxy
    rw [Finset.mem_coe] at hx hy
    cases x with
    | inl bid1 =>
        cases y with
        | inl bid2 =>
            have : bid1 = bid2 := hxy
            rw [this]
        | inr kid2 => exact absurd hxy (hmixed bid1 kid2 hx hy)
    | inr kid1 =>
        cases y with
        | inl bid2 => exact absurd hxy.symm (hmixed bid2 kid1 hy hx)
        | inr kid2 =>
            obtain ⟨b1, hb1, -, -, ⟨k1, hk1, hk1id, hb1ink⟩, hwit1⟩ :=
              itemWitness_inr_spec data sol brand sup.id kid1 hx
            obtain ⟨b2, hb2, -, -, ⟨k2, hk2, hk2id, hb2ink⟩, hwit2⟩ :=
              itemWitness_inr_spec data sol brand sup.id kid2 hy
            have hids : b1.id = b2.id := by
              rw [← hwit1, ← hwit2]
              exact hxy
            have hbb : b1 = b2 := List.inj_on_of_nodup_map hbid hb1 hb2 hids
            have hkk : k1 = k2 := hdisj k1 hk1 k2 hk2 b1.id hb1ink (by rw [hbb]; exact hb2ink)
            rw [← hk1id, ← hk2id, hkk]
  calc (itemsOfBrandAt data sol brand sup.id).card
      ≤ ((data.books.filter fun b => b.brand == brand &&
          placedAt data sol b.id sup.id).map Book.id).toFinset.card :=
        Finset.card_le_card_of_injOn (itemWitness data sol brand sup.id) hinto hinj
    _ ≤ ((data.books.filter fun b => b.brand == brand &&
          placedAt data sol b.id sup.id).map Book.id).length := List.toFinset_card_le _
    _ = (data.books.filter fun b => b.brand == brand &&
          placedAt data sol b.id sup.id).length := List.length_map _ _
    _ ≤ data.config.max_volumes_per_brand_per_supplier := hbookcount

/-- Witness for C3 at the concrete instance `W10`. -/
theorem c3_witness :
    Admits W10 solW ∧ (W10.books.map Book.id).Nodup ∧
    (W10.suppliers.map Supplier.id).Nodup ∧
    (∀ k1 ∈ W10.kits, ∀ k2 ∈ W10.kits, ∀ bid : String,
        bid ∈ k1.book_ids → bid ∈ k2.book_ids → k1 = k2) ∧
    (∀ b ∈ W10.books, ∀ k ∈ W10.kits, b.id ∈ k.book_ids → b.kit_id = some k.id) ∧
    supW ∈ W10.suppliers ∧
    (itemsOfBrandAt W10 solW "A" supW.id).card
      ≤ W10.config.max_volumes_per_brand_per_supplier :=
  ⟨admitsW, by decide, by decide,
    fun k1 hk1 => absurd hk1 (List.not_mem_nil k1),
    fun b hb k hk _ => absurd hk (List.not_mem_nil k),
    by decide,
    c3_brand_item_cap W10 solW admitsW (by decide) (by decide)
      (fun k1 hk1 => absurd hk1 (List.not_mem_nil k1))
      (fun b hb k hk _ => absurd hk (List.not_mem_nil k)) "A" supW (by decide)⟩

end PrintOpt
